import Mathlib

/-!
Verification development for the hyprsca repository (two binaries sharing one
design: `hyprsca` in `src/main.rs` talking to Hyprland over IPC, and `wlscsr`
in `src/bin/wlscsr.rs` driving the `wlr-randr` / `hyprctl` backends in
`src/backend/`).  The Rust data model and the pure core of every operation
(identity comparison, sorting, fingerprint hashing, snapshot save, snapshot
reconciliation, fallback command construction, lid exclusion) are embedded
shallowly below; the I/O boundary (file store contents, command dispatch) is
made explicit as function arguments and returned command lists.

Modelling conventions:
* Rust `i32` geometry fields are `Int` (they are only carried, never
  overflow-relevant here); `f64` fields (`refresh_rate`, `scale`) are `Rat` —
  they are stored and compared, never computed with, and their decimal
  rendering into backend command strings is kept structural (the commands
  below carry the values, not their textual form).
* Rust `String` is Lean `String`; `String::cmp` (byte-lexicographic on UTF-8)
  is the lexicographic comparison of the `LinearOrder` on `String`
  (code-point order, which agrees with byte order for valid UTF-8).
* `Vec::sort_by` (a stable sort) is modelled by `List.insertionSort`, which is
  also stable and hence extensionally the same function on every input.
* Byte strings (file contents, hash input) are `List Nat` with values < 256.
-/

/-! ## Definitions -/

/-- Geometry configuration of an enabled head (`HeadConfig` in
`src/main.rs` and `src/types.rs`). -/
structure HeadConfig where
  width : Int
  height : Int
  refresh_rate : Rat
  x : Int
  y : Int
  scale : Rat
  transform : Int
  vrr : Bool
deriving DecidableEq, Repr

/-- A display head (`Head` in `src/main.rs` and `src/types.rs`): current
session name (serde-skipped / stripped on save), immutable identity triple,
and the geometry (`none` iff the display is disabled). -/
structure Head where
  name : Option String
  make : String
  model : String
  serial : String
  config : Option HeadConfig
deriving DecidableEq, Repr

/-- The identity triple `(make, model, serial)`. -/
abbrev Ident := String × String × String

/-- Identity of a head, the tuple Rust compares in the reconciliation loop. -/
def Head.mms (h : Head) : Ident := (h.make, h.model, h.serial)

/-- Three-way string comparison (`String::cmp` in Rust). -/
def strCmp (a b : String) : Ordering :=
  if a < b then .lt else if a = b then .eq else .gt

/-- Comparator on identity triples, the body of `Head::cmp_mms`
(`src/main.rs:113`, `src/types.rs:35`):
`make.cmp(..).then_with(model.cmp(..).then_with(serial.cmp(..)))`. -/
def cmpIdent (a b : Ident) : Ordering :=
  (strCmp a.1 b.1).then ((strCmp a.2.1 b.2.1).then (strCmp a.2.2 b.2.2))

/-- `Head::cmp_mms`: lexicographic comparison by make, model, serial. -/
def Head.cmp_mms (a b : Head) : Ordering := cmpIdent a.mms b.mms

/-- The non-strict order on identities induced by the comparator. -/
def identLe (a b : Ident) : Prop := (cmpIdent a b).isLE = true

/-- The non-strict order on heads used by `heads.sort_by(Head::cmp_mms)`. -/
def headLe (a b : Head) : Prop := (Head.cmp_mms a b).isLE = true

instance (a b : Ident) : Decidable (identLe a b) := by unfold identLe; infer_instance

instance (a b : Head) : Decidable (headLe a b) := by unfold headLe; infer_instance

/-- `heads.sort_by(Head::cmp_mms)`: a stable sort by the identity comparator,
modelled as insertion sort (stable sorts agree extensionally). -/
def sortHeads (l : List Head) : List Head := l.insertionSort headLe

/-! ### SHA-256 (the `sha2` crate's `Sha256`, as used by `hash_heads`)

Pure implementation over byte lists (`List Nat`, each < 256); 32-bit words
are `Nat` reduced mod `2^32`. -/

/-- Reduce to a 32-bit word. -/
def w32 (n : Nat) : Nat := n % 4294967296

/-- Right rotation of a 32-bit word. -/
def rotr32 (x n : Nat) : Nat := w32 ((x >>> n) ||| (x <<< (32 - n)))

def ssig0 (x : Nat) : Nat := rotr32 x 7 ^^^ rotr32 x 18 ^^^ (x >>> 3)

def ssig1 (x : Nat) : Nat := rotr32 x 17 ^^^ rotr32 x 19 ^^^ (x >>> 10)

def bsig0 (x : Nat) : Nat := rotr32 x 2 ^^^ rotr32 x 13 ^^^ rotr32 x 22

def bsig1 (x : Nat) : Nat := rotr32 x 6 ^^^ rotr32 x 11 ^^^ rotr32 x 25

def chF (x y z : Nat) : Nat := (x &&& y) ^^^ ((x ^^^ 4294967295) &&& z)

def majF (x y z : Nat) : Nat := (x &&& y) ^^^ (x &&& z) ^^^ (y &&& z)

def sha256K : List Nat :=
  [1116352408, 1899447441, 3049323471, 3921009573, 961987163,
   1508970993, 2453635748, 2870763221, 3624381080, 310598401,
   607225278, 1426881987, 1925078388, 2162078206, 2614888103,
   3248222580, 3835390401, 4022224774, 264347078, 604807628,
   770255983, 1249150122, 1555081692, 1996064986, 2554220882,
   2821834349, 2952996808, 3210313671, 3336571891, 3584528711,
   113926993, 338241895, 666307205, 773529912, 1294757372,
   1396182291, 1695183700, 1986661051, 2177026350, 2456956037,
   2730485921, 2820302411, 3259730800, 3345764771, 3516065817,
   3600352804, 4094571909, 275423344, 430227734, 506948616,
   659060556, 883997877, 958139571, 1322822218, 1537002063,
   1747873779, 1955562222, 2024104815, 2227730452, 2361852424,
   2428436474, 2756734187, 3204031479, 3329325298]

def sha256H0 : List Nat :=
  [1779033703, 3144134277, 1013904242, 2773480762,
   1359893119, 2600822924, 528734635, 1541459225]

/-- Little-endian 8-byte encoding (`usize::to_le_bytes` on a 64-bit target). -/
def leBytes8 (n : Nat) : List Nat :=
  [n % 256, n / 256 % 256, n / 65536 % 256, n / 16777216 % 256,
   n / 4294967296 % 256, n / 1099511627776 % 256,
   n / 281474976710656 % 256, n / 72057594037927936 % 256]

/-- Big-endian 8-byte encoding (SHA-256 length field). -/
def beBytes8 (n : Nat) : List Nat := (leBytes8 n).reverse

/-- Big-endian bytes of a 32-bit word (digest output). -/
def wordBE (x : Nat) : List Nat :=
  [x / 16777216 % 256, x / 65536 % 256, x / 256 % 256, x % 256]

/-- Big-endian 32-bit word number `i` of a 64-byte block. -/
def blockWord (block : List Nat) (i : Nat) : Nat :=
  block.getD (4 * i) 0 * 16777216 + block.getD (4 * i + 1) 0 * 65536 +
    block.getD (4 * i + 2) 0 * 256 + block.getD (4 * i + 3) 0

/-- Extend the 16 block words by `k` further schedule words. -/
def extendSchedule (w : List Nat) : Nat → List Nat
  | 0 => w
  | k + 1 =>
    extendSchedule
      (w ++ [w32 (ssig1 (w.getD (w.length - 2) 0) + w.getD (w.length - 7) 0 +
        ssig0 (w.getD (w.length - 15) 0) + w.getD (w.length - 16) 0)]) k

def sha256Schedule (block : List Nat) : List Nat :=
  extendSchedule ((List.range 16).map (blockWord block)) 48

/-- One compression round on the eight working registers. -/
def sha256Round (w : List Nat) (st : List Nat) (t : Nat) : List Nat :=
  match st with
  | [a, b, c, d, e, f, g, h] =>
    let t1 := w32 (h + bsig1 e + chF e f g + sha256K.getD t 0 + w.getD t 0)
    let t2 := w32 (bsig0 a + majF a b c)
    [w32 (t1 + t2), a, b, c, w32 (d + t1), e, f, g]
  | other => other

def sha256Compress (hs : List Nat) (block : List Nat) : List Nat :=
  let w := sha256Schedule block
  let st := (List.range 64).foldl (sha256Round w) hs
  List.zipWith (fun x y => w32 (x + y)) hs st

def sha256Blocks (hs : List Nat) (l : List Nat) : List Nat :=
  if hnil : l = [] then hs
  else sha256Blocks (sha256Compress hs (l.take 64)) (l.drop 64)
termination_by l.length
decreasing_by
  have hp : 0 < l.length := List.length_pos.mpr hnil
  simp only [List.length_drop]
  omega

/-- Merkle–Damgård padding: `0x80`, zeros, 8-byte big-endian bit length. -/
def sha256Pad (msg : List Nat) : List Nat :=
  msg ++ 128 :: (List.replicate ((119 - msg.length % 64) % 64) 0 ++ beBytes8 (8 * msg.length))

/-- SHA-256 digest (32 bytes) of a byte string. -/
def sha256 (msg : List Nat) : List Nat :=
  ((sha256Blocks sha256H0 (sha256Pad msg)).map wordBE).flatten

/-! ### Fingerprint engine (`hash_heads`, `src/main.rs:265` and
`src/bin/wlscsr.rs:183` — the two bodies hash the identical byte stream) -/

/-- UTF-8 bytes of a Rust `String`. -/
def strBytes (s : String) : List Nat := s.toUTF8.toList.map (fun b => b.toNat)

/-- Length-prefixed identity bytes: for each of make, model, serial, the
8-byte little-endian byte length followed by the bytes. -/
def identBytes (i : Ident) : List Nat :=
  leBytes8 (strBytes i.1).length ++ strBytes i.1 ++
    leBytes8 (strBytes i.2.1).length ++ strBytes i.2.1 ++
    leBytes8 (strBytes i.2.2).length ++ strBytes i.2.2

/-- Per-head contribution to the hash input (`hasher.update` calls inside the
loop of `hash_heads`). -/
def headBytes (h : Head) : List Nat := identBytes h.mms

/-- `hash_heads`: SHA-256 over the display count (`heads.len().to_le_bytes()`)
followed by each head's length-prefixed make, model and serial bytes. -/
def hash_heads (heads : List Head) : List Nat :=
  sha256 (leBytes8 heads.length ++ (heads.map headBytes).flatten)

/-- The fingerprint used as the snapshot key: `main` sorts the active heads
with `heads.sort_by(Head::cmp_mms)` before calling `hash_heads`. -/
def fingerprintOf (heads : List Head) : List Nat := hash_heads (sortHeads heads)

/-! ### Exclusion filter (lid rules, `src/main.rs:167` / `src/bin/wlscsr.rs:90`) -/

/-- One `[[lid]]` rule of the configuration file: indicator `file` path and
the `head` name it excludes. -/
structure LidConfig where
  file : String
  head : String
deriving DecidableEq, Repr

/-- Rust `u8::is_ascii_whitespace`: space, tab, newline, form feed, carriage
return. -/
def isAsciiWhitespaceByte (b : Nat) : Bool :=
  b = 32 || b = 9 || b = 10 || b = 12 || b = 13

def trimAsciiStart (l : List Nat) : List Nat := l.dropWhile isAsciiWhitespaceByte

def trimAsciiEnd (l : List Nat) : List Nat :=
  (l.reverse.dropWhile isAsciiWhitespaceByte).reverse

/-- Rust `[u8]::trim_ascii`: whitespace removed from both ends
(`trim_ascii_start().trim_ascii_end()`). -/
def trimAsciiBytes (l : List Nat) : List Nat := trimAsciiEnd (trimAsciiStart l)

/-- The sentinel `b"closed"`. -/
def closedBytes : List Nat := [99, 108, 111, 115, 101, 100]

/-- One lid rule's decision: `std::fs::read(file).ok().map(|c|
c.trim_ascii().ends_with(b"closed")).unwrap_or(false)`.  The filesystem is
the explicit map `fs` from path to readable content (`none` = read fails). -/
def lidIsClosed (fs : String → Option (List Nat)) (file : String) : Bool :=
  match fs file with
  | none => false
  | some contents => closedBytes.isSuffixOf (trimAsciiBytes contents)

/-- The exclusion set `ignored_head_names` (a `HashSet` in Rust, modelled by
a list used only through membership). -/
def ignored_head_names (fs : String → Option (List Nat)) (lid : List LidConfig) :
    List String :=
  lid.filterMap (fun c => if lidIsClosed fs c.file then some c.head else none)

/-- Test from the partition in both `main`s:
`h.name.as_ref().map(|name| ignored_head_names.contains(name)).unwrap_or(false)`. -/
def headIsIgnored (ignoredNames : List String) (h : Head) : Bool :=
  (h.name.map (fun n => ignoredNames.contains n)).getD false

/-- Partition of the enumerated heads into (active, ignored), order preserved
within each group (the `filter_map` that pushes ignored heads aside). -/
def partitionHeads (ignoredNames : List String) (monitors : List Head) :
    List Head × List Head :=
  (monitors.filter (fun h => !headIsIgnored ignoredNames h),
   monitors.filter (fun h => headIsIgnored ignoredNames h))

/-! ### Config store: save (`Commands::Save` branch of both `main`s) -/

/-- Strip every record's name (`h.name = None`) — the list written to the
snapshot file; both `Head` serializers omit an absent name entirely. -/
def saveSnapshot (heads : List Head) : List Head :=
  heads.map (fun h => { h with name := none })

/-! ### Reconciler (`restore_config`, `src/main.rs:283`;
`load_head_config`, `src/bin/wlscsr.rs:200` — line-identical logic) -/

/-- Failure cases of a restore attempt.  `snapshotNotFound` / `snapshotCorrupt`
are the propagated `std::fs::read` / `serde_json` errors; the other two carry
the data interpolated into the `anyhow!` messages. -/
inductive RestoreError
  | snapshotNotFound
  | snapshotCorrupt
  | lengthMismatch (saved current : Nat)
  | identityMismatch (idx : Nat)
deriving DecidableEq, Repr

/-- The `anyhow!` message text for the two reconciliation failures (the load
failures display their underlying io/serde error instead). -/
def mismatchMessage (path : String) : RestoreError → Option String
  | .lengthMismatch a b =>
    some ("Screen config " ++ path ++ " does not match connected heads (" ++
      toString a ++ "!=" ++ toString b ++ ")")
  | .identityMismatch i =>
    some ("Screen config " ++ path ++ " does not match connected heads (idx " ++
      toString i ++ ")")
  | _ => none

/-- The pairwise walk of `restore_config` / `load_head_config`: at each index
require identity equality (first mismatch wins, reported by index), copy the
current head's name onto the saved record.  Rust's `zip` stops at the shorter
list (unreachable after the length check). -/
def walkPairs : List Head → List Head → Nat → Except RestoreError (List Head)
  | [], _, _ => .ok []
  | _ :: _, [], _ => .ok []
  | s :: ss, h :: hs, idx =>
    if s.mms = h.mms then
      match walkPairs ss hs (idx + 1) with
      | .error e => .error e
      | .ok rest => .ok ({ s with name := h.name } :: rest)
    else .error (.identityMismatch idx)

/-- First index (counting from `i`) at which two identity lists disagree. -/
def firstDiff : List Ident → List Ident → Nat → Option Nat
  | a :: as, b :: bs, i => if a = b then firstDiff as bs (i + 1) else some i
  | _, _, _ => none

/-- Reconciliation core shared verbatim by both binaries: length check, sort
the snapshot by `cmp_mms`, pairwise identity walk with name copy, then append
the ignored heads forced to `config = None`. -/
def reconcileCore (saved_heads heads ignored_heads : List Head) :
    Except RestoreError (List Head) :=
  if saved_heads.length ≠ heads.length then
    .error (.lengthMismatch saved_heads.length heads.length)
  else
    match walkPairs (sortHeads saved_heads) heads 0 with
    | .error e => .error e
    | .ok matched => .ok (matched ++ ignored_heads.map (fun h => { h with config := none }))

/-- `load_head_config` (`src/bin/wlscsr.rs:200`): read and decode the snapshot
file for the current fingerprint, then reconcile.  The store content is the
explicit argument `file` (`none` = no file, `some none` = undecodable,
`some (some l)` = decodes to `l`). -/
def load_head_config (file : Option (Option (List Head)))
    (heads ignored_heads : List Head) : Except RestoreError (List Head) :=
  match file with
  | none => .error .snapshotNotFound
  | some none => .error .snapshotCorrupt
  | some (some saved_heads) => reconcileCore saved_heads heads ignored_heads

/-- One `hyprctl` recipe command of the `hyprsca` binary
(`impl Command for Head`, `src/main.rs:121`, plus the fallback string built in
the `Restore` arm).  The geometry string rendering is kept structural. -/
inductive HyprlandCmd
  | monitorCfg (name : String) (cfg : HeadConfig)
  | monitorDisable (name : String)
  | monitorPreferredAutoAuto (name : String)
deriving DecidableEq, Repr

/-- `Head::get_command` (`src/main.rs:122`): configure when a config is
present, otherwise disable; a missing name renders as the empty string. -/
def Head.toCommand (h : Head) : HyprlandCmd :=
  match h.config with
  | some cfg => .monitorCfg (h.name.getD "") cfg
  | none => .monitorDisable (h.name.getD "")

/-- `restore_config` (`src/main.rs:283`): same reconciliation as
`load_head_config`, then the recipe of `get_command`s for the reconciled heads
chained with the ignored heads forced to disabled. -/
def restore_config (file : Option (Option (List Head)))
    (heads ignored_heads : List Head) : Except RestoreError (List HyprlandCmd) :=
  match load_head_config file heads ignored_heads with
  | .error e => .error e
  | .ok merged => .ok (merged.map Head.toCommand)

/-- The fallback recipe of the `hyprsca` binary (`src/main.rs:217`):
`keyword monitor {name},preferred,auto,auto` for every named head of the
active list; ignored heads are not addressed. -/
def hyprsca_fallback_cmds (heads : List Head) : List HyprlandCmd :=
  heads.filterMap (fun h => h.name.map (fun name => .monitorPreferredAutoAuto name))

/-- The `Commands::Restore` arm of the `hyprsca` binary (`src/main.rs:212`):
on reconciliation failure the error is logged (`error!`), the fallback recipe
is sent only with `--fallback-to-default`, and `main` then falls through to
`Ok(())`.  Result: (commands sent to Hyprland, process exit code). -/
def hyprsca_restore (fallback_to_default : Bool) (file : Option (Option (List Head)))
    (heads ignored_heads : List Head) : List HyprlandCmd × Nat :=
  match restore_config file heads ignored_heads with
  | .ok cmds => (cmds, 0)
  | .error _ =>
    if fallback_to_default then (hyprsca_fallback_cmds heads, 0)
    else ([], 0)

/-- What the `wlscsr` binary hands its backend in the `Restore` arm
(`src/bin/wlscsr.rs:134`): either `set_head_config` on the reconciled heads or
`fallback_head_config` on the name lists. -/
inductive ProviderCall
  | setHeads (heads : List Head)
  | fallback (active inactive : List String)
deriving DecidableEq, Repr

/-- The `Commands::Restore` arm of the `wlscsr` binary: reconcile; on success
apply; on failure either fall back (flag given) or propagate the error, which
makes `main` exit with a non-zero status. -/
def wlscsr_restore (fallback_to_default : Bool) (file : Option (Option (List Head)))
    (heads ignored_heads : List Head) : Except RestoreError ProviderCall :=
  match load_head_config file heads ignored_heads with
  | .ok saved_heads => .ok (.setHeads saved_heads)
  | .error err =>
    if fallback_to_default then
      .ok (.fallback (heads.filterMap (fun h => h.name))
        (ignored_heads.filterMap (fun h => h.name)))
    else .error err

/-! ### Backends (`src/backend/wlr_randr.rs`, `src/backend/hyprctl.rs`),
command construction only (the subprocess spawn is the I/O boundary) -/

/-- One `wlr-randr` command-line argument. -/
inductive WlrArg
  | output (name : String)
  | on
  | off
  | preferredMode
  | mode (width height : Int) (refresh : Rat)
  | pos (x y : Int)
  | rightOf (name : String)
  | scaleArg (scale : Rat)
  | transformArg (t : String)
  | adaptiveSync (enabled : Bool)
deriving DecidableEq, Repr

/-- Transform code to `wlr-randr` transform string (`set_head_config`,
`src/backend/wlr_randr.rs:54`). -/
def transformName (t : Int) : String :=
  if t = 1 then "90" else if t = 2 then "180" else if t = 3 then "270"
  else if t = 4 then "flipped" else if t = 5 then "flipped-90"
  else if t = 6 then "flipped-180" else if t = 7 then "flipped-270"
  else "normal"

/-- Arguments contributed by one head in `WlrRandrBackend::set_head_config`
(`src/backend/wlr_randr.rs:31`): nothing at all without a name (`let Some =
... else continue`), otherwise `--output` plus on/config or `--off`. -/
def wlrHeadArgs (h : Head) : List WlrArg :=
  match h.name with
  | none => []
  | some name =>
    WlrArg.output name ::
      (match h.config with
       | some cfg =>
         [.on, .mode cfg.width cfg.height cfg.refresh_rate, .pos cfg.x cfg.y,
          .scaleArg cfg.scale, .transformArg (transformName cfg.transform),
          .adaptiveSync cfg.vrr]
       | none => [.off])

/-- `WlrRandrBackend::set_head_config`: one argument batch over all heads. -/
def wlr_set_args (heads : List Head) : List WlrArg :=
  (heads.map wlrHeadArgs).flatten

/-- The loop of `WlrRandrBackend::fallback_head_config`
(`src/backend/wlr_randr.rs:87`): each active head gets `--output name --on
--preferred`, position `--pos 0,0` for the first and `--right-of previous`
afterwards, `--scale 1 --transform normal`; `previous_head` threads through. -/
def wlrTile (previous_head : Option String) : List String → List WlrArg
  | [] => []
  | head :: rest =>
    (WlrArg.output head :: WlrArg.on :: WlrArg.preferredMode ::
      (match previous_head with
       | some p => [WlrArg.rightOf p]
       | none => [WlrArg.pos 0 0]) ++ [WlrArg.scaleArg 1, WlrArg.transformArg "normal"]) ++
      wlrTile (some head) rest

/-- `WlrRandrBackend::fallback_head_config`: tiled active heads followed by
`--output name --off` for every inactive head. -/
def wlr_fallback_args (active_head_names inactive_head_names : List String) :
    List WlrArg :=
  wlrTile none active_head_names ++
    (inactive_head_names.map (fun h => [WlrArg.output h, WlrArg.off])).flatten

/-- The argument block of one tiled head in the fallback: on, preferred mode,
`--pos 0,0` without a predecessor or `--right-of` the predecessor, scale 1,
normal transform. -/
def wlrFallbackBlock (p : String × Option String) : List WlrArg :=
  WlrArg.output p.1 :: WlrArg.on :: WlrArg.preferredMode ::
    (match p.2 with
     | some q => [WlrArg.rightOf q]
     | none => [WlrArg.pos 0 0]) ++ [WlrArg.scaleArg 1, WlrArg.transformArg "normal"]

/-- One `hyprctl --batch` argument. -/
inductive HyprctlArg
  | monitorCfg (name : String) (cfg : HeadConfig)
  | monitorDisable (name : String)
  | monitorPreferredAuto1 (name : String)
deriving DecidableEq, Repr

/-- `HyprctlBackend::set_head_config` (`src/backend/hyprctl.rs:31`): heads
without a name are skipped (`continue`); each named head contributes one
batch argument (configure or disable). -/
def hyprctl_set_args (heads : List Head) : List HyprctlArg :=
  heads.filterMap (fun h =>
    h.name.map (fun name =>
      match h.config with
      | some cfg => HyprctlArg.monitorCfg name cfg
      | none => HyprctlArg.monitorDisable name))

/-- `HyprctlBackend::fallback_head_config` (`src/backend/hyprctl.rs:67`):
`keyword monitor {name},preferred,auto,1;` per active head, then
`keyword monitor {name},disable;` per inactive head. -/
def hyprctl_fallback_args (active_head_names inactive_head_names : List String) :
    List HyprctlArg :=
  active_head_names.map (fun h => HyprctlArg.monitorPreferredAuto1 h) ++
    inactive_head_names.map (fun h => HyprctlArg.monitorDisable h)

/-! ## Lemmas about the comparator and the sort -/

theorem strCmp_lt {a b : String} (h : a < b) : strCmp a b = .lt := by
  simp [strCmp, h]

theorem strCmp_eq {a b : String} (h : a = b) : strCmp a b = .eq := by
  simp [strCmp, h, lt_irrefl]

theorem strCmp_gt {a b : String} (h : b < a) : strCmp a b = .gt := by
  simp [strCmp, not_lt.mpr h.le, h.ne']

/-- Unfolding of `identLe` into order facts about the three components. -/
theorem identLe_iff (a b : Ident) :
    identLe a b ↔
      a.1 < b.1 ∨ a.1 = b.1 ∧ (a.2.1 < b.2.1 ∨ a.2.1 = b.2.1 ∧ a.2.2 ≤ b.2.2) := by
  unfold identLe cmpIdent
  rcases lt_trichotomy a.1 b.1 with h1 | h1 | h1
  · rw [strCmp_lt h1]
    exact ⟨fun _ => Or.inl h1, fun _ => rfl⟩
  · rw [strCmp_eq h1]
    rcases lt_trichotomy a.2.1 b.2.1 with h2 | h2 | h2
    · rw [strCmp_lt h2]
      exact ⟨fun _ => Or.inr ⟨h1, Or.inl h2⟩, fun _ => rfl⟩
    · rw [strCmp_eq h2]
      rcases lt_trichotomy a.2.2 b.2.2 with h3 | h3 | h3
      · rw [strCmp_lt h3]
        exact ⟨fun _ => Or.inr ⟨h1, Or.inr ⟨h2, h3.le⟩⟩, fun _ => rfl⟩
      · rw [strCmp_eq h3]
        exact ⟨fun _ => Or.inr ⟨h1, Or.inr ⟨h2, h3.le⟩⟩, fun _ => rfl⟩
      · rw [strCmp_gt h3]
        refine iff_of_false nofun ?_
        rintro (h | ⟨-, h | ⟨-, h⟩⟩)
        · exact absurd h (h1 ▸ lt_irrefl _)
        · exact absurd h (h2 ▸ lt_irrefl _)
        · exact absurd h (not_le.mpr h3)
    · rw [strCmp_gt h2]
      refine iff_of_false nofun ?_
      rintro (h | ⟨-, h | ⟨h, -⟩⟩)
      · exact absurd h (h1 ▸ lt_irrefl _)
      · exact absurd h (lt_asymm h2)
      · exact absurd h h2.ne'
  · rw [strCmp_gt h1]
    refine iff_of_false nofun ?_
    rintro (h | ⟨h, -⟩)
    · exact absurd h (lt_asymm h1)
    · exact absurd h h1.ne'

theorem identLe_total (a b : Ident) : identLe a b ∨ identLe b a := by
  rw [identLe_iff, identLe_iff]
  rcases lt_trichotomy a.1 b.1 with h1 | h1 | h1
  · exact Or.inl (Or.inl h1)
  · rcases lt_trichotomy a.2.1 b.2.1 with h2 | h2 | h2
    · exact Or.inl (Or.inr ⟨h1, Or.inl h2⟩)
    · rcases le_total a.2.2 b.2.2 with h3 | h3
      · exact Or.inl (Or.inr ⟨h1, Or.inr ⟨h2, h3⟩⟩)
      · exact Or.inr (Or.inr ⟨h1.symm, Or.inr ⟨h2.symm, h3⟩⟩)
    · exact Or.inr (Or.inr ⟨h1.symm, Or.inl h2⟩)
  · exact Or.inr (Or.inl h1)

theorem identLe_trans {a b c : Ident} (hab : identLe a b) (hbc : identLe b c) :
    identLe a c := by
  rw [identLe_iff] at hab hbc ⊢
  rcases hab with h1 | ⟨h1, h2⟩
  · rcases hbc with g1 | ⟨g1, -⟩
    · exact Or.inl (h1.trans g1)
    · exact Or.inl (g1 ▸ h1)
  · rcases hbc with g1 | ⟨g1, g2⟩
    · exact Or.inl (h1 ▸ g1)
    · refine Or.inr ⟨h1.trans g1, ?_⟩
      rcases h2 with h2 | ⟨h2, h3⟩
      · rcases g2 with g2 | ⟨g2, -⟩
        · exact Or.inl (h2.trans g2)
        · exact Or.inl (g2 ▸ h2)
      · rcases g2 with g2 | ⟨g2, g3⟩
        · exact Or.inl (h2 ▸ g2)
        · exact Or.inr ⟨h2.trans g2, h3.trans g3⟩

theorem identLe_antisymm {a b : Ident} (hab : identLe a b) (hba : identLe b a) :
    a = b := by
  rw [identLe_iff] at hab hba
  obtain ⟨a1, a2, a3⟩ := a
  obtain ⟨b1, b2, b3⟩ := b
  simp only [Prod.mk.injEq]
  rcases hab with h1 | ⟨h1, h2⟩
  · rcases hba with g1 | ⟨g1, -⟩
    · exact absurd g1 (lt_asymm h1)
    · exact absurd g1.symm h1.ne
  · rcases hba with g1 | ⟨g1, g2⟩
    · exact absurd g1 (h1 ▸ lt_irrefl _)
    · refine ⟨h1, ?_⟩
      rcases h2 with h2 | ⟨h2, h3⟩
      · rcases g2 with g2 | ⟨g2, -⟩
        · exact absurd g2 (lt_asymm h2)
        · exact absurd g2.symm h2.ne
      · rcases g2 with g2 | ⟨g2, g3⟩
        · exact absurd g2 (h2 ▸ lt_irrefl _)
        · exact ⟨h2, le_antisymm h3 g3⟩

theorem headLe_iff_mms (a b : Head) : headLe a b ↔ identLe a.mms b.mms := Iff.rfl

/-- The sorted head list is sorted in the canonical identity order. -/
theorem sortHeads_sorted (l : List Head) : (sortHeads l).Sorted headLe := by
  haveI : IsTotal Head headLe := ⟨fun a b => identLe_total a.mms b.mms⟩
  haveI : IsTrans Head headLe := ⟨fun _ _ _ => identLe_trans⟩
  exact List.sorted_insertionSort headLe l

/-- Sorted heads are sorted as identities after projecting with `mms`. -/
theorem sortHeads_sorted_mms (l : List Head) :
    ((sortHeads l).map Head.mms).Sorted identLe :=
  List.Pairwise.map Head.mms (fun _ _ hab => hab) (sortHeads_sorted l)

/-- Sorting permutes: the identity multiset is preserved. -/
theorem sortHeads_perm (l : List Head) : (sortHeads l).Perm l :=
  List.perm_insertionSort headLe l

/-- Canonical-sort key fact: two head lists with permutation-equal identity
lists sort to the same identity list. -/
theorem sortHeads_map_mms_eq {l₁ l₂ : List Head}
    (h : (l₁.map Head.mms).Perm (l₂.map Head.mms)) :
    (sortHeads l₁).map Head.mms = (sortHeads l₂).map Head.mms := by
  haveI : IsAntisymm Ident identLe := ⟨fun _ _ => identLe_antisymm⟩
  refine List.eq_of_perm_of_sorted ?_ (sortHeads_sorted_mms l₁) (sortHeads_sorted_mms l₂)
  exact ((sortHeads_perm l₁).map Head.mms).trans
    (h.trans ((sortHeads_perm l₂).map Head.mms).symm)

/-! ## Lemmas about hashing, saving and reconciliation -/

/-- The hash input is a function of the identity list alone: names and
geometry are never fed to the hasher. -/
theorem hash_heads_eq_ids (heads : List Head) :
    hash_heads heads =
      sha256 (leBytes8 (heads.map Head.mms).length ++
        ((heads.map Head.mms).map identBytes).flatten) := by
  simp only [hash_heads, List.length_map, List.map_map]
  rfl

/-- Stripping the name changes neither the identity nor the hash bytes. -/
theorem mms_strip (h : Head) : ({ h with name := none } : Head).mms = h.mms := rfl

theorem saveSnapshot_map_mms (l : List Head) :
    (saveSnapshot l).map Head.mms = l.map Head.mms := by
  simp only [saveSnapshot, List.map_map]
  rfl

/-- If the sorted snapshot and the current heads have the same identity list,
the pairwise walk succeeds and copies every current name. -/
theorem walkPairs_ok : ∀ (ss hs : List Head) (i : Nat),
    ss.map Head.mms = hs.map Head.mms →
    walkPairs ss hs i =
      .ok (List.zipWith (fun s h => { s with name := h.name }) ss hs)
  | [], [], _, _ => rfl
  | [], _ :: _, _, h => by simp at h
  | _ :: _, [], _, h => by simp at h
  | s :: ss, h :: hs, i, hmap => by
    simp only [List.map_cons, List.cons.injEq] at hmap
    simp only [walkPairs, if_pos hmap.1, walkPairs_ok ss hs (i + 1) hmap.2,
      List.zipWith_cons_cons]

/-- If the identity lists first disagree at index `j` (counting from `i`),
the pairwise walk fails with exactly that index. -/
theorem walkPairs_mismatch : ∀ (ss hs : List Head) (i j : Nat),
    firstDiff (ss.map Head.mms) (hs.map Head.mms) i = some j →
    walkPairs ss hs i = .error (.identityMismatch j)
  | [], _, _, _, h => by cases h
  | _ :: _, [], _, _, h => by cases h
  | s :: ss, h :: hs, i, j, hdiff => by
    simp only [List.map_cons, firstDiff] at hdiff
    by_cases heq : s.mms = h.mms
    · rw [if_pos heq] at hdiff
      rw [walkPairs, if_pos heq, walkPairs_mismatch ss hs (i + 1) j hdiff]
    · rw [if_neg heq] at hdiff
      cases hdiff
      rw [walkPairs, if_neg heq]

/-- Names of the reconciled prefix are exactly the current names. -/
theorem zipWith_name_map : ∀ (ss hs : List Head), ss.length = hs.length →
    (List.zipWith (fun s h => { s with name := h.name }) ss hs).map Head.name =
      hs.map Head.name
  | [], [], _ => rfl
  | [], _ :: _, h => by cases h
  | _ :: _, [], h => by cases h
  | s :: ss, h :: hs, hlen => by
    simp only [List.length_cons, Nat.add_right_cancel_iff] at hlen
    simp [zipWith_name_map ss hs hlen]

/-- Successful reconciliation, explicitly: equal identity multisets and an
already canonically sorted current list give the zipped result plus the
disabled ignored tail. -/
theorem reconcileCore_ok (saved heads ign : List Head)
    (hperm : (saved.map Head.mms).Perm (heads.map Head.mms))
    (hsorted : (heads.map Head.mms).Sorted identLe) :
    reconcileCore saved heads ign =
      .ok (List.zipWith (fun s h => { s with name := h.name }) (sortHeads saved) heads ++
        ign.map (fun h => { h with config := none })) := by
  haveI : IsAntisymm Ident identLe := ⟨fun _ _ => identLe_antisymm⟩
  have hkey : (sortHeads saved).map Head.mms = heads.map Head.mms :=
    List.eq_of_perm_of_sorted (((sortHeads_perm saved).map Head.mms).trans hperm)
      (sortHeads_sorted_mms saved) hsorted
  have hlen : saved.length = heads.length := by
    have := hperm.length_eq
    simpa using this
  rw [reconcileCore, if_neg (by omega), walkPairs_ok _ _ _ hkey]

/-! ## Claim theorems -/

/-- C2: Fingerprint order-independence — for every two enumerations with
permutation-equal identity multisets (names, geometry and order free to
differ), the fingerprint (SHA-256 over the count and the length-prefixed
identity fields of the canonically sorted active set) is identical. -/
theorem C2_fingerprint_order_independence (l₁ l₂ : List Head)
    (h : (l₁.map Head.mms).Perm (l₂.map Head.mms)) :
    fingerprintOf l₁ = fingerprintOf l₂ := by
  unfold fingerprintOf
  rw [hash_heads_eq_ids, hash_heads_eq_ids, sortHeads_map_mms_eq h]

/-- Witness for C2: two displays enumerated in swapped order, under swapped
names and with different geometry, fingerprint identically. -/
theorem C2_fingerprint_order_independence_witness :
    (([⟨some "DP-1", "A", "B", "1", some ⟨1920, 1080, 60, 0, 0, 1, 0, false⟩⟩,
       ⟨some "DP-2", "C", "D", "2", none⟩] : List Head).map Head.mms).Perm
      (([⟨some "DP-1", "C", "D", "2", some ⟨800, 600, 50, 5, 5, 2, 1, true⟩⟩,
         ⟨some "DP-2", "A", "B", "1", none⟩] : List Head).map Head.mms) ∧
    fingerprintOf
        [⟨some "DP-1", "A", "B", "1", some ⟨1920, 1080, 60, 0, 0, 1, 0, false⟩⟩,
         ⟨some "DP-2", "C", "D", "2", none⟩] =
      fingerprintOf
        [⟨some "DP-1", "C", "D", "2", some ⟨800, 600, 50, 5, 5, 2, 1, true⟩⟩,
         ⟨some "DP-2", "A", "B", "1", none⟩] :=
  ⟨by decide, C2_fingerprint_order_independence _ _ (by decide)⟩

/-- C9: Snapshot file invariant — what save writes (the canonically sorted
active set with every name stripped) is sorted by the `(make, model, serial)`
comparator, contains no name, and feeds the fingerprint hasher in exactly the
snapshot's record order (the snapshot's own length and identity bytes rebuild
the hash input). -/
theorem C9_snapshot_invariant (active : List Head) :
    (saveSnapshot (sortHeads active)).Sorted headLe ∧
    (∀ h ∈ saveSnapshot (sortHeads active), h.name = none) ∧
    hash_heads (sortHeads active) =
      sha256 (leBytes8 (saveSnapshot (sortHeads active)).length ++
        ((saveSnapshot (sortHeads active)).map headBytes).flatten) := by
  refine ⟨?_, ?_, ?_⟩
  · exact List.Pairwise.map _ (fun a b hab => hab) (sortHeads_sorted active)
  · intro h hm
    simp only [saveSnapshot, List.mem_map] at hm
    obtain ⟨x, -, rfl⟩ := hm
    rfl
  · simp only [hash_heads, saveSnapshot, List.length_map, List.map_map]
    rfl

/-- C10: apply silently skips nameless heads — in both backends'
`set_head_config`, a head whose name is `None` contributes no argument at
all, so the batch equals the batch over only the named heads. -/
theorem C10_apply_skips_nameless (heads : List Head) :
    wlr_set_args heads = wlr_set_args (heads.filter (fun h => h.name.isSome)) ∧
    hyprctl_set_args heads = hyprctl_set_args (heads.filter (fun h => h.name.isSome)) := by
  induction heads with
  | nil => exact ⟨rfl, rfl⟩
  | cons h t ih =>
    cases hn : h.name with
    | none =>
      refine ⟨?_, ?_⟩
      · simp [wlr_set_args, wlrHeadArgs, List.filter_cons, hn] at ih ⊢
        exact ih.1
      · simp [hyprctl_set_args, List.filter_cons, hn] at ih ⊢
        exact ih.2
    | some n =>
      refine ⟨?_, ?_⟩
      · simp [wlr_set_args, List.filter_cons, hn] at ih ⊢
        exact ih.1
      · simp [hyprctl_set_args, List.filter_cons, hn] at ih ⊢
        exact ih.2

/-- C5: Length mismatch fails closed — a snapshot whose record count differs
from the current active count makes reconciliation fail with both counts (the
`lengthMismatch` error carries them, before any identity is compared and
whatever the identities are), and neither binary invokes apply: `wlscsr`
propagates the error instead of a provider call, `hyprsca` sends no command. -/
theorem C5_length_mismatch_fails_closed (saved heads ignored : List Head)
    (h : saved.length ≠ heads.length) :
    load_head_config (some (some saved)) heads ignored =
      .error (.lengthMismatch saved.length heads.length) ∧
    wlscsr_restore false (some (some saved)) heads ignored =
      .error (.lengthMismatch saved.length heads.length) ∧
    hyprsca_restore false (some (some saved)) heads ignored = ([], 0) := by
  have h1 : load_head_config (some (some saved)) heads ignored =
      .error (.lengthMismatch saved.length heads.length) := by
    simp only [load_head_config, reconcileCore, if_pos h]
  exact ⟨h1, by simp [wlscsr_restore, h1], by simp [hyprsca_restore, restore_config, h1]⟩

/-- Witness for C5: a two-record snapshot against three connected heads. -/
theorem C5_length_mismatch_fails_closed_witness :
    (([⟨none, "A", "B", "1", none⟩, ⟨none, "C", "D", "2", none⟩] : List Head).length ≠
      ([⟨some "DP-1", "A", "B", "1", none⟩, ⟨some "DP-2", "C", "D", "2", none⟩,
        ⟨some "DP-3", "E", "F", "3", none⟩] : List Head).length) ∧
    (load_head_config
        (some (some [⟨none, "A", "B", "1", none⟩, ⟨none, "C", "D", "2", none⟩]))
        [⟨some "DP-1", "A", "B", "1", none⟩, ⟨some "DP-2", "C", "D", "2", none⟩,
         ⟨some "DP-3", "E", "F", "3", none⟩] [] =
      .error (.lengthMismatch
        ([⟨none, "A", "B", "1", none⟩, ⟨none, "C", "D", "2", none⟩] : List Head).length
        ([⟨some "DP-1", "A", "B", "1", none⟩, ⟨some "DP-2", "C", "D", "2", none⟩,
          ⟨some "DP-3", "E", "F", "3", none⟩] : List Head).length) ∧
    wlscsr_restore false
        (some (some [⟨none, "A", "B", "1", none⟩, ⟨none, "C", "D", "2", none⟩]))
        [⟨some "DP-1", "A", "B", "1", none⟩, ⟨some "DP-2", "C", "D", "2", none⟩,
         ⟨some "DP-3", "E", "F", "3", none⟩] [] =
      .error (.lengthMismatch
        ([⟨none, "A", "B", "1", none⟩, ⟨none, "C", "D", "2", none⟩] : List Head).length
        ([⟨some "DP-1", "A", "B", "1", none⟩, ⟨some "DP-2", "C", "D", "2", none⟩,
          ⟨some "DP-3", "E", "F", "3", none⟩] : List Head).length) ∧
    hyprsca_restore false
        (some (some [⟨none, "A", "B", "1", none⟩, ⟨none, "C", "D", "2", none⟩]))
        [⟨some "DP-1", "A", "B", "1", none⟩, ⟨some "DP-2", "C", "D", "2", none⟩,
         ⟨some "DP-3", "E", "F", "3", none⟩] [] = ([], 0)) :=
  ⟨by decide, C5_length_mismatch_fails_closed _ _ _ (by decide)⟩

/-- C3 counterexample: in the `hyprsca` binary, a restore whose
reconciliation fails (here: no snapshot file) without `--fallback-to-default`
applies nothing but exits with status 0 — `main` only logs the error and
falls through to `Ok(())` — contradicting the claimed non-zero exit status. -/
theorem C3_counterexample_hyprsca_exit_zero :
    load_head_config none [⟨some "DP-1", "A", "B", "1", none⟩] [] =
      .error .snapshotNotFound ∧
    hyprsca_restore false none [⟨some "DP-1", "A", "B", "1", none⟩] [] = ([], 0) :=
  ⟨rfl, rfl⟩

/-- C3 amended: on any reconciliation failure without the fallback flag, no
configuration is applied by either binary; the `wlscsr` binary propagates the
error (non-zero exit), while the `hyprsca` binary logs it and exits 0. -/
theorem C3_restore_without_fallback (file : Option (Option (List Head)))
    (heads ignored : List Head) (e : RestoreError)
    (h : load_head_config file heads ignored = .error e) :
    wlscsr_restore false file heads ignored = .error e ∧
    hyprsca_restore false file heads ignored = ([], 0) := by
  exact ⟨by simp [wlscsr_restore, h], by simp [hyprsca_restore, restore_config, h]⟩

/-- Witness for the amended C3 at a missing snapshot file. -/
theorem C3_restore_without_fallback_witness :
    load_head_config none ([⟨some "eDP-1", "A", "B", "1", none⟩] : List Head) [] =
      .error .snapshotNotFound ∧
    (wlscsr_restore false none ([⟨some "eDP-1", "A", "B", "1", none⟩] : List Head) [] =
      .error .snapshotNotFound ∧
    hyprsca_restore false none ([⟨some "eDP-1", "A", "B", "1", none⟩] : List Head) [] =
      ([], 0)) :=
  ⟨rfl, C3_restore_without_fallback none _ [] .snapshotNotFound rfl⟩

/-- C4 counterexample: the identity-mismatch error names the index but not
the identities — at a concrete mismatch (saved make `"AAAA"`, current make
`"BBBB"`, index 0) the `anyhow!` message contains neither identity string. -/
theorem C4_counterexample_message_lacks_identities :
    load_head_config (some (some [⟨none, "AAAA", "M", "S", none⟩]))
        [⟨some "DP-1", "BBBB", "M", "S", none⟩] [] =
      .error (.identityMismatch 0) ∧
    ¬ ("AAAA".toList <:+:
        ((mismatchMessage "p" (RestoreError.identityMismatch 0)).getD "").toList) ∧
    ¬ ("BBBB".toList <:+:
        ((mismatchMessage "p" (RestoreError.identityMismatch 0)).getD "").toList) := by
  refine ⟨rfl, by decide, by decide⟩

/-- C4 amended: with equal counts, a first identity difference at index `j`
of the two canonically sorted sequences fails reconciliation with
`identityMismatch j`; the message names the path and the index (not the
identities), and apply is not invoked by either binary. -/
theorem C4_identity_mismatch_fails_closed (saved current ignored : List Head) (j : Nat)
    (hlen : saved.length = (sortHeads current).length)
    (hdiff : firstDiff ((sortHeads saved).map Head.mms)
      ((sortHeads current).map Head.mms) 0 = some j) :
    load_head_config (some (some saved)) (sortHeads current) ignored =
      .error (.identityMismatch j) ∧
    wlscsr_restore false (some (some saved)) (sortHeads current) ignored =
      .error (.identityMismatch j) ∧
    hyprsca_restore false (some (some saved)) (sortHeads current) ignored = ([], 0) ∧
    ∀ path, mismatchMessage path (.identityMismatch j) =
      some ("Screen config " ++ path ++ " does not match connected heads (idx " ++
        toString j ++ ")") := by
  have h1 : load_head_config (some (some saved)) (sortHeads current) ignored =
      .error (.identityMismatch j) := by
    simp only [load_head_config, reconcileCore, if_neg (not_ne_iff.mpr hlen)]
    rw [walkPairs_mismatch _ _ 0 j hdiff]
  exact ⟨h1, by simp [wlscsr_restore, h1],
    by simp [hyprsca_restore, restore_config, h1], fun _ => rfl⟩

/-- Witness for the amended C4: one saved identity `(AAAA, M, S)` against one
current identity `(BBBB, M, S)` fails at index 0. -/
theorem C4_identity_mismatch_fails_closed_witness :
    (([⟨none, "AAAA", "M", "S", none⟩] : List Head).length =
      (sortHeads [⟨some "DP-1", "BBBB", "M", "S", none⟩]).length) ∧
    (firstDiff ((sortHeads [⟨none, "AAAA", "M", "S", none⟩]).map Head.mms)
      ((sortHeads [⟨some "DP-1", "BBBB", "M", "S", none⟩]).map Head.mms) 0 = some 0) ∧
    (load_head_config (some (some [⟨none, "AAAA", "M", "S", none⟩]))
        (sortHeads [⟨some "DP-1", "BBBB", "M", "S", none⟩]) [] =
      .error (.identityMismatch 0) ∧
    wlscsr_restore false (some (some [⟨none, "AAAA", "M", "S", none⟩]))
        (sortHeads [⟨some "DP-1", "BBBB", "M", "S", none⟩]) [] =
      .error (.identityMismatch 0) ∧
    hyprsca_restore false (some (some [⟨none, "AAAA", "M", "S", none⟩]))
        (sortHeads [⟨some "DP-1", "BBBB", "M", "S", none⟩]) [] = ([], 0) ∧
    ∀ path, mismatchMessage path (.identityMismatch 0) =
      some ("Screen config " ++ path ++ " does not match connected heads (idx " ++
        toString 0 ++ ")")) :=
  ⟨by decide, by decide,
    C4_identity_mismatch_fails_closed _ _ _ 0 (by decide) (by decide)⟩

/-- Closed form of the fallback tiling loop: each head is paired with its
predecessor (`none` for the first). -/
theorem wlrTile_eq : ∀ (l : List String) (prev : Option String),
    wlrTile prev l = ((l.zip (prev :: l.map some)).map wlrFallbackBlock).flatten
  | [], _ => rfl
  | h :: t, prev => by
    simp only [wlrTile, List.map_cons, List.zip_cons_cons, List.flatten_cons]
    rw [wlrTile_eq t (some h)]
    rfl

/-- The fallback tiling never emits an adaptive-sync argument. -/
theorem wlrTile_no_adaptiveSync : ∀ (l : List String) (prev : Option String) (b : Bool),
    WlrArg.adaptiveSync b ∉ wlrTile prev l
  | [], _, _ => by simp [wlrTile]
  | h :: t, prev, b => by
    simp only [wlrTile, List.mem_append]
    rintro (hm | hm)
    · rcases prev with - | p <;> simp at hm
    · exact wlrTile_no_adaptiveSync t (some h) b hm

/-- `wlr-randr` fallback emits no adaptive-sync argument anywhere. -/
theorem wlr_fallback_no_adaptiveSync (active inactive : List String) (b : Bool) :
    WlrArg.adaptiveSync b ∉ wlr_fallback_args active inactive := by
  simp only [wlr_fallback_args, List.mem_append]
  rintro (hm | hm)
  · exact wlrTile_no_adaptiveSync active none b hm
  · simp only [List.mem_flatten, List.mem_map] at hm
    obtain ⟨l, ⟨x, -, rfl⟩, hmem⟩ := hm
    simp at hmem

/-- C7 counterexample: the claim's "vrr disabled" and "every ignored display
explicitly turned off" are both absent from the actual instructions — the
`wlr-randr` fallback for active `["DP-1"]`, inactive `["eDP-1"]` contains no
adaptive-sync argument, and the `hyprsca` binary's fallback recipe (restore
with fallback after a failed load) issues only `DP-1,preferred,auto,auto`,
no command at all for the ignored `eDP-1`. -/
theorem C7_counterexample_fallback_instructions :
    WlrArg.adaptiveSync false ∉ wlr_fallback_args ["DP-1"] ["eDP-1"] ∧
    (hyprsca_restore true none
        [⟨some "DP-1", "A", "B", "1", none⟩]
        [⟨some "eDP-1", "C", "D", "2", some ⟨800, 600, 60, 0, 0, 1, 0, false⟩⟩]).1 =
      [HyprlandCmd.monitorPreferredAutoAuto "DP-1"] ∧
    HyprlandCmd.monitorDisable "eDP-1" ∉ (hyprsca_restore true none
        [⟨some "DP-1", "A", "B", "1", none⟩]
        [⟨some "eDP-1", "C", "D", "2", some ⟨800, 600, 60, 0, 0, 1, 0, false⟩⟩]).1 := by
  refine ⟨by decide, rfl, by decide⟩

/-- C7 amended: the fallback instruction lists, exactly.  `wlr-randr`: every
active head in order gets on + preferred mode + (`--pos 0,0` for the first,
`--right-of predecessor` after) + scale 1 + normal transform, with no vrr
instruction, and every ignored head gets `--output name --off`.  `hyprctl`
backend: `name,preferred,auto,1` per active head (scale 1, transform and vrr
left to provider defaults), `name,disable` per ignored head.  The `hyprsca`
binary's built-in fallback issues only `name,preferred,auto,auto` (auto
scale) for named active heads and nothing for ignored heads. -/
theorem C7_fallback_policy_layout (active inactive : List String) (heads : List Head) :
    wlr_fallback_args active inactive =
      ((active.zip ((none : Option String) :: active.map some)).map wlrFallbackBlock).flatten ++
        (inactive.map (fun h => [WlrArg.output h, WlrArg.off])).flatten ∧
    (WlrArg.adaptiveSync false ∉ wlr_fallback_args active inactive ∧
      WlrArg.adaptiveSync true ∉ wlr_fallback_args active inactive) ∧
    hyprctl_fallback_args active inactive =
      active.map HyprctlArg.monitorPreferredAuto1 ++
        inactive.map HyprctlArg.monitorDisable ∧
    ∀ c ∈ hyprsca_fallback_cmds heads,
      ∃ n, c = HyprlandCmd.monitorPreferredAutoAuto n ∧ some n ∈ heads.map Head.name := by
  refine ⟨?_, ⟨wlr_fallback_no_adaptiveSync active inactive false,
    wlr_fallback_no_adaptiveSync active inactive true⟩, rfl, ?_⟩
  · unfold wlr_fallback_args
    rw [wlrTile_eq]
  · intro c hc
    simp only [hyprsca_fallback_cmds, List.mem_filterMap] at hc
    obtain ⟨h, hh, hmap⟩ := hc
    rcases hn : h.name with - | n
    · rw [hn] at hmap
      cases hmap
    · rw [hn] at hmap
      simp only [Option.map_some'] at hmap
      cases hmap
      exact ⟨n, rfl, List.mem_map.mpr ⟨h, hh, hn⟩⟩

/-- C1: Save/restore round trip repairs name instability — saving an active
set and restoring with the same physical displays enumerated under any names
in any order succeeds; the result's name fields are exactly the current
enumeration's names (reconciled heads first, then the ignored heads), and
position `i` of the reconciled sequence carries the current head's name and
identity together with the geometry of a saved record of that same identity
(the saved records having no name by construction). -/
theorem C1_save_restore_round_trip (l₁ l₂ ignored : List Head)
    (hperm : (l₂.map Head.mms).Perm (l₁.map Head.mms)) :
    ∃ r, load_head_config (some (some (saveSnapshot (sortHeads l₁))))
        (sortHeads l₂) ignored = .ok r ∧
      r.map Head.name = (sortHeads l₂).map Head.name ++ ignored.map Head.name ∧
      ∀ (i : Nat) (h2 : Head), (sortHeads l₂)[i]? = some h2 →
        ∃ rh, r[i]? = some rh ∧ rh.name = h2.name ∧ rh.mms = h2.mms ∧
          ∃ s ∈ saveSnapshot (sortHeads l₁), s.mms = h2.mms ∧ s.config = rh.config := by
  haveI : IsAntisymm Ident identLe := ⟨fun _ _ => identLe_antisymm⟩
  have hperm' : ((saveSnapshot (sortHeads l₁)).map Head.mms).Perm
      ((sortHeads l₂).map Head.mms) := by
    rw [saveSnapshot_map_mms]
    exact ((sortHeads_perm l₁).map Head.mms).trans
      (hperm.symm.trans ((sortHeads_perm l₂).map Head.mms).symm)
  have hok := reconcileCore_ok (saveSnapshot (sortHeads l₁)) (sortHeads l₂) ignored
    hperm' (sortHeads_sorted_mms l₂)
  have hkey : (sortHeads (saveSnapshot (sortHeads l₁))).map Head.mms =
      (sortHeads l₂).map Head.mms :=
    List.eq_of_perm_of_sorted
      (((sortHeads_perm (saveSnapshot (sortHeads l₁))).map Head.mms).trans hperm')
      (sortHeads_sorted_mms _) (sortHeads_sorted_mms l₂)
  have hlen : (sortHeads (saveSnapshot (sortHeads l₁))).length = (sortHeads l₂).length := by
    have := congrArg List.length hkey
    simpa using this
  refine ⟨_, hok, ?_, ?_⟩
  · rw [List.map_append, zipWith_name_map _ _ hlen, List.map_map]
    rfl
  · intro i h2 hi
    have hilt : i < (sortHeads l₂).length := (List.getElem?_eq_some_iff.mp hi).1
    have hilt2 : i < (sortHeads (saveSnapshot (sortHeads l₁))).length := by omega
    have hsi : (sortHeads (saveSnapshot (sortHeads l₁)))[i]? =
        some ((sortHeads (saveSnapshot (sortHeads l₁)))[i]) :=
      List.getElem?_eq_getElem hilt2
    have hmms : ((sortHeads (saveSnapshot (sortHeads l₁)))[i]).mms = h2.mms := by
      have hcg := congrArg (fun l => l[i]?) hkey
      simp only [List.getElem?_map, hsi, hi, Option.map_some'] at hcg
      exact Option.some.injEq _ _ ▸ hcg
    refine ⟨{ (sortHeads (saveSnapshot (sortHeads l₁)))[i] with name := h2.name },
      ?_, rfl, hmms, ⟨(sortHeads (saveSnapshot (sortHeads l₁)))[i],
        (sortHeads_perm (saveSnapshot (sortHeads l₁))).subset (List.getElem?_mem hsi),
        hmms, rfl⟩⟩
    rw [List.getElem?_append_left (by simp only [List.length_zipWith]; omega),
      List.getElem?_zipWith, hsi, hi]

/-- Witness for C1, the spec's round-trip example: identities `(A,B,1)` with
geometry `G1` and `(C,D,2)` with `G2`, re-enumerated in swapped order with the
names `DP-1`/`DP-2` swapped. -/
theorem C1_save_restore_round_trip_witness :
    ((([⟨some "DP-2", "C", "D", "2", some ⟨1280, 1024, 75, 1920, 0, 1, 0, true⟩⟩,
        ⟨some "DP-1", "A", "B", "1", some ⟨1920, 1080, 60, 0, 0, 1, 0, false⟩⟩] :
        List Head).map Head.mms).Perm
      (([⟨some "DP-1", "A", "B", "1", some ⟨1920, 1080, 60, 0, 0, 1, 0, false⟩⟩,
         ⟨some "DP-2", "C", "D", "2", some ⟨1280, 1024, 75, 1920, 0, 1, 0, true⟩⟩] :
        List Head).map Head.mms)) ∧
    ∃ r, load_head_config
        (some (some (saveSnapshot (sortHeads
          [⟨some "DP-1", "A", "B", "1", some ⟨1920, 1080, 60, 0, 0, 1, 0, false⟩⟩,
           ⟨some "DP-2", "C", "D", "2", some ⟨1280, 1024, 75, 1920, 0, 1, 0, true⟩⟩]))))
        (sortHeads
          [⟨some "DP-2", "C", "D", "2", some ⟨1280, 1024, 75, 1920, 0, 1, 0, true⟩⟩,
           ⟨some "DP-1", "A", "B", "1", some ⟨1920, 1080, 60, 0, 0, 1, 0, false⟩⟩]) [] =
        .ok r ∧
      r.map Head.name = (sortHeads
          [⟨some "DP-2", "C", "D", "2", some ⟨1280, 1024, 75, 1920, 0, 1, 0, true⟩⟩,
           ⟨some "DP-1", "A", "B", "1", some ⟨1920, 1080, 60, 0, 0, 1, 0, false⟩⟩]).map Head.name ++
        ([] : List Head).map Head.name ∧
      ∀ (i : Nat) (h2 : Head), (sortHeads
          [⟨some "DP-2", "C", "D", "2", some ⟨1280, 1024, 75, 1920, 0, 1, 0, true⟩⟩,
           ⟨some "DP-1", "A", "B", "1", some ⟨1920, 1080, 60, 0, 0, 1, 0, false⟩⟩])[i]? =
          some h2 →
        ∃ rh, r[i]? = some rh ∧ rh.name = h2.name ∧ rh.mms = h2.mms ∧
          ∃ s ∈ saveSnapshot (sortHeads
            [⟨some "DP-1", "A", "B", "1", some ⟨1920, 1080, 60, 0, 0, 1, 0, false⟩⟩,
             ⟨some "DP-2", "C", "D", "2", some ⟨1280, 1024, 75, 1920, 0, 1, 0, true⟩⟩]),
            s.mms = h2.mms ∧ s.config = rh.config :=
  ⟨by decide, C1_save_restore_round_trip _ _ [] (by decide)⟩

/-- On any successful reconciliation the result ends with exactly the ignored
heads forced to `config = None`. -/
theorem reconcileCore_ok_shape (saved heads ign r : List Head)
    (h : reconcileCore saved heads ign = .ok r) :
    ∃ m, r = m ++ ign.map (fun x => { x with config := none }) := by
  unfold reconcileCore at h
  by_cases hlen : saved.length ≠ heads.length
  · rw [if_pos hlen] at h
    simp at h
  · rw [if_neg hlen] at h
    cases hw : walkPairs (sortHeads saved) heads 0 with
    | error e =>
      rw [hw] at h
      simp at h
    | ok m =>
      rw [hw] at h
      cases h
      exact ⟨m, rfl⟩

/-- C6: Ignored displays are quarantined — the partition puts exactly the
heads whose current name is in the exclusion set aside (active heads are
never excluded); the snapshot that save writes consists of exactly the active
heads' records (names stripped), and the fingerprint hashes exactly the
active identities, so excluded displays contribute to neither; and every
successful restore returns the ignored heads appended at the end with
`config = None` regardless of their current configuration. -/
theorem C6_ignored_quarantined (ignoredNames : List String) (monitors : List Head) :
    (∀ h ∈ (partitionHeads ignoredNames monitors).2,
      ∃ n, h.name = some n ∧ ignoredNames.contains n = true) ∧
    (∀ h ∈ (partitionHeads ignoredNames monitors).1,
      headIsIgnored ignoredNames h = false) ∧
    (saveSnapshot (sortHeads (partitionHeads ignoredNames monitors).1)).Perm
      ((partitionHeads ignoredNames monitors).1.map (fun h => { h with name := none })) ∧
    ((sortHeads (partitionHeads ignoredNames monitors).1).map Head.mms).Perm
      (((partitionHeads ignoredNames monitors).1).map Head.mms) ∧
    ∀ (file : Option (Option (List Head))) (r : List Head),
      load_head_config file (sortHeads (partitionHeads ignoredNames monitors).1)
        (partitionHeads ignoredNames monitors).2 = .ok r →
      ∃ m, r = m ++ (partitionHeads ignoredNames monitors).2.map
        (fun h => { h with config := none }) := by
  refine ⟨?_, ?_, ?_, ?_, ?_⟩
  · intro h hm
    simp only [partitionHeads, List.mem_filter] at hm
    have hig := hm.2
    unfold headIsIgnored at hig
    cases hn : h.name with
    | none =>
      rw [hn] at hig
      simp at hig
    | some n =>
      rw [hn] at hig
      simp only [Option.map_some', Option.getD_some] at hig
      exact ⟨n, rfl, hig⟩
  · intro h hm
    simp only [partitionHeads, List.mem_filter, Bool.not_eq_true'] at hm
    exact hm.2
  · exact (sortHeads_perm _).map _
  · exact (sortHeads_perm _).map Head.mms
  · intro file r h
    match file with
    | none => simp [load_head_config] at h
    | some none => simp [load_head_config] at h
    | some (some saved) => exact reconcileCore_ok_shape _ _ _ _ h

/-- Trimming the end of an all-whitespace byte string leaves nothing. -/
theorem trimAsciiEnd_all_ws {l : List Nat}
    (h : ∀ b ∈ l, isAsciiWhitespaceByte b = true) : trimAsciiEnd l = [] := by
  unfold trimAsciiEnd
  rw [List.dropWhile_eq_nil_iff.mpr (fun b hb => h b (List.mem_reverse.mp hb))]
  rfl

/-- End-trimming skips over a prefix when something non-whitespace follows. -/
theorem trimAsciiEnd_append_of_exists {W M : List Nat}
    (h : ∃ m ∈ M, isAsciiWhitespaceByte m = false) :
    trimAsciiEnd (W ++ M) = W ++ trimAsciiEnd M := by
  unfold trimAsciiEnd
  rw [List.reverse_append, List.dropWhile_append]
  have hne : M.reverse.dropWhile isAsciiWhitespaceByte ≠ [] := by
    intro hnil
    rw [List.dropWhile_eq_nil_iff] at hnil
    obtain ⟨m, hm, hmf⟩ := h
    have := hnil m (List.mem_reverse.mpr hm)
    rw [hmf] at this
    cases this
  rw [if_neg (by simpa [List.isEmpty_iff] using hne), List.reverse_append,
    List.reverse_reverse]

/-- A `closed` suffix cannot reach into an all-whitespace prefix: the sentinel
is a suffix of `W ++ X` iff it is a suffix of `X` when `W` is whitespace. -/
theorem closed_suffix_append_ws {W X : List Nat}
    (hW : ∀ b ∈ W, isAsciiWhitespaceByte b = true) :
    closedBytes <:+ W ++ X ↔ closedBytes <:+ X := by
  constructor
  · intro h
    rcases List.suffix_or_suffix_of_suffix h (List.suffix_append W X) with hc | hx
    · exact hc
    · obtain ⟨pre, hpre⟩ := hx
      obtain ⟨t, ht⟩ := h
      cases pre with
      | nil =>
        rw [List.nil_append] at hpre
        rw [← hpre]
      | cons p pr =>
        exfalso
        have hp : p = 99 := by
          rw [closedBytes] at hpre
          injection hpre
        have hWeq : t ++ (p :: pr) = W := by
          have h2 : (t ++ (p :: pr)) ++ X = W ++ X := by
            rw [List.append_assoc, hpre, ht]
          exact (List.append_inj' h2 rfl).1
        have hpW : p ∈ W := by
          rw [← hWeq]
          exact List.mem_append.mpr (Or.inr (List.mem_cons_self p pr))
        have := hW p hpW
        rw [hp] at this
        cases this
  · intro h
    exact h.trans (List.suffix_append W X)

/-- The code's both-ends trim and the claim's trailing-only trim agree on the
sentinel-suffix test. -/
theorem closed_suffix_trim_iff (contents : List Nat) :
    closedBytes <:+ trimAsciiBytes contents ↔ closedBytes <:+ trimAsciiEnd contents := by
  unfold trimAsciiBytes trimAsciiStart
  have hsplit : contents.takeWhile isAsciiWhitespaceByte ++
      contents.dropWhile isAsciiWhitespaceByte = contents :=
    List.takeWhile_append_dropWhile isAsciiWhitespaceByte contents
  by_cases hM : ∃ m ∈ contents.dropWhile isAsciiWhitespaceByte,
      isAsciiWhitespaceByte m = false
  · conv_rhs => rw [← hsplit]
    rw [trimAsciiEnd_append_of_exists hM,
      closed_suffix_append_ws (fun b hb => List.mem_takeWhile_imp hb)]
  · have hall : ∀ m ∈ contents.dropWhile isAsciiWhitespaceByte,
        isAsciiWhitespaceByte m = true := by
      intro m hm
      cases hb : isAsciiWhitespaceByte m with
      | false => exact absurd ⟨m, hm, hb⟩ hM
      | true => rfl
    have hallc : ∀ m ∈ contents, isAsciiWhitespaceByte m = true := by
      intro m hm
      rw [← hsplit] at hm
      rcases List.mem_append.mp hm with hm | hm
      · exact List.mem_takeWhile_imp hm
      · exact hall m hm
    rw [trimAsciiEnd_all_ws hall, trimAsciiEnd_all_ws hallc]

/-- One lid rule excludes iff the indicator is readable and its content,
trimmed of trailing whitespace, ends with the sentinel. -/
theorem lidIsClosed_iff (fs : String → Option (List Nat)) (file : String) :
    lidIsClosed fs file = true ↔
      ∃ contents, fs file = some contents ∧ closedBytes <:+ trimAsciiEnd contents := by
  unfold lidIsClosed
  cases hf : fs file with
  | none => simp
  | some contents =>
    constructor
    · intro h
      refine ⟨contents, rfl, ?_⟩
      rw [← closed_suffix_trim_iff]
      exact (List.isSuffixOf_iff_suffix).mp h
    · rintro ⟨c, hc, h⟩
      cases hc
      exact (List.isSuffixOf_iff_suffix).mpr ((closed_suffix_trim_iff _).mpr h)

/-- C8: exclusion filter sentinel and fail-open — a name is in the computed
exclusion set iff some lid rule maps it to a file whose read succeeds and
whose content, trimmed of trailing whitespace, ends with `"closed"`; a failed
read (the `fs` map returning `none`) can never exclude. -/
theorem C8_lid_exclusion_sentinel (fs : String → Option (List Nat))
    (lid : List LidConfig) (n : String) :
    n ∈ ignored_head_names fs lid ↔
      ∃ c ∈ lid, c.head = n ∧ ∃ contents, fs c.file = some contents ∧
        closedBytes <:+ trimAsciiEnd contents := by
  unfold ignored_head_names
  rw [List.mem_filterMap]
  constructor
  · rintro ⟨c, hc, hif⟩
    by_cases hcl : lidIsClosed fs c.file = true
    · rw [if_pos hcl] at hif
      cases hif
      exact ⟨c, hc, rfl, (lidIsClosed_iff _ _).mp hcl⟩
    · rw [if_neg hcl] at hif
      cases hif
  · rintro ⟨c, hc, rfl, hcond⟩
    exact ⟨c, hc, by rw [if_pos ((lidIsClosed_iff _ _).mpr hcond)]⟩
